import Mathlib

/-!
Verification of the General Pod Autoscaler (GPA) control loop.

Machine `int32` values are modelled as `Int`; timestamps are modelled as
integer (or natural) seconds.  Definitions are shallow embeddings of the
corresponding Go functions, keeping the source names.
-/

/-- Embeds `calculateScaleUpLimit`: `int32(math.Max(scaleUpLimitFactor*float64(currentReplicas),
scaleUpLimitMinimum))` with `scaleUpLimitFactor = 2.0`, `scaleUpLimitMinimum = 4.0`.
For `int32` inputs in range the float computation is exact, so this is `max (2*c) 4`. -/
def calculateScaleUpLimit (currentReplicas : Int) : Int :=
  max (2 * currentReplicas) 4

/-- Embeds `convertDesiredReplicasWithRules(currentReplicas, desiredReplicas,
gpaMinReplicas, gpaMaxReplicas)`.  Returns (replicas, condition, reason). -/
def convertDesiredReplicasWithRules (currentReplicas desiredReplicas gpaMinReplicas
    gpaMaxReplicas : Int) : Int × String × String :=
  let minimumAllowedReplicas := gpaMinReplicas
  let scaleUpLimit := calculateScaleUpLimit currentReplicas
  let capped :=
    if gpaMaxReplicas > scaleUpLimit then
      (scaleUpLimit, "ScaleUpLimit",
        "the desired replica count is increasing faster than the maximum scale rate")
    else
      (gpaMaxReplicas, "TooManyReplicas",
        "the desired replica count is more than the maximum replica count")
  let maximumAllowedReplicas := capped.1
  if desiredReplicas < minimumAllowedReplicas then
    (minimumAllowedReplicas, "TooFewReplicas",
      "the desired replica count is less than the minimum replica count")
  else if desiredReplicas > maximumAllowedReplicas then
    (maximumAllowedReplicas, capped.2.1, capped.2.2)
  else
    (desiredReplicas, "DesiredWithinRange", "the desired count is within the acceptable range")

/-- C1: in the legacy normalization path, `convertDesiredReplicasWithRules` returns `min`
when `desired < min`, returns `min(max, max(2*current, 4))` when `desired` exceeds that
bound, and otherwise returns `desired` unchanged; and whenever normalization is reached
(so `0 ≤ min ≤ current ≤ max`, guaranteed by the reconcile gates) the result lies in
`[min, max]`. -/
theorem convertDesiredReplicasWithRules_clamp
    (currentReplicas desiredReplicas gpaMinReplicas gpaMaxReplicas : Int)
    (hmin0 : 0 ≤ gpaMinReplicas)
    (hlow : gpaMinReplicas ≤ currentReplicas)
    (hhigh : currentReplicas ≤ gpaMaxReplicas) :
    (gpaMinReplicas ≤ (convertDesiredReplicasWithRules currentReplicas desiredReplicas
        gpaMinReplicas gpaMaxReplicas).1 ∧
      (convertDesiredReplicasWithRules currentReplicas desiredReplicas
        gpaMinReplicas gpaMaxReplicas).1 ≤ gpaMaxReplicas) ∧
    (desiredReplicas < gpaMinReplicas →
      (convertDesiredReplicasWithRules currentReplicas desiredReplicas
        gpaMinReplicas gpaMaxReplicas).1 = gpaMinReplicas) ∧
    (gpaMinReplicas ≤ desiredReplicas →
      min gpaMaxReplicas (max (2 * currentReplicas) 4) < desiredReplicas →
      (convertDesiredReplicasWithRules currentReplicas desiredReplicas
        gpaMinReplicas gpaMaxReplicas).1 =
        min gpaMaxReplicas (max (2 * currentReplicas) 4)) ∧
    (gpaMinReplicas ≤ desiredReplicas →
      desiredReplicas ≤ min gpaMaxReplicas (max (2 * currentReplicas) 4) →
      (convertDesiredReplicasWithRules currentReplicas desiredReplicas
        gpaMinReplicas gpaMaxReplicas).1 = desiredReplicas) := by
  simp only [convertDesiredReplicasWithRules, calculateScaleUpLimit]
  rw [min_def, max_def]
  split_ifs <;> simp_all <;> omega

/-- Witness for `convertDesiredReplicasWithRules_clamp` at
current = 10, desired = 50, min = 5, max = 18: the scale-up cap is
max(20, 4) = 20, so the bound is min(18, 20) = 18 and the result is 18. -/
theorem convertDesiredReplicasWithRules_clamp_witness :
    (convertDesiredReplicasWithRules 10 50 5 18).1 = min 18 (max (2 * 10) 4) :=
  (convertDesiredReplicasWithRules_clamp 10 50 5 18 (by decide) (by decide)
    (by decide)).2.2.1 (by decide) (by decide)

/-- Embeds the `GeneralPodAutoscalerCondition` struct: `{Type, Status, Reason, Message,
LastTransitionTime}`.  The Go zero time is modelled as `0`. -/
structure GeneralPodAutoscalerCondition where
  type : String
  status : String
  reason : String
  message : String
  lastTransitionTime : Int
  deriving DecidableEq, Repr

/-- Embeds `setConditionInList(inputList, conditionType, status, reason, message)`:
find the first entry whose `Type` matches (the Go loop breaks at the first match)
and mutate it in place; if there is none, append a zero-valued entry
(`Status` is the empty string, `LastTransitionTime` the zero time) and mutate that.
The mutation sets `LastTransitionTime` to `now` exactly when the stored status
differs from the incoming one, then overwrites status, reason and message. -/
def setConditionInList (now : Int) :
    List GeneralPodAutoscalerCondition → String → String → String → String →
    List GeneralPodAutoscalerCondition
  | [], conditionType, status, reason, message =>
      [{ type := conditionType, status := status, reason := reason, message := message,
         lastTransitionTime := if "" ≠ status then now else 0 }]
  | c :: rest, conditionType, status, reason, message =>
      if c.type = conditionType then
        { type := c.type, status := status, reason := reason, message := message,
          lastTransitionTime :=
            if c.status ≠ status then now else c.lastTransitionTime } :: rest
      else
        c :: setConditionInList now rest conditionType status reason message

lemma setConditionInList_types (now : Int) (l : List GeneralPodAutoscalerCondition)
    (ct st rsn msg : String) :
    (setConditionInList now l ct st rsn msg).map (fun c => c.type) =
      if ct ∈ l.map (fun c => c.type) then l.map (fun c => c.type)
      else l.map (fun c => c.type) ++ [ct] := by
  induction l with
  | nil => simp [setConditionInList]
  | cons c rest ih =>
    by_cases hc : c.type = ct
    · simp [setConditionInList, hc]
    · simp only [setConditionInList, if_neg hc, List.map_cons, List.mem_cons]
      rw [ih]
      by_cases hmem : ct ∈ rest.map (fun c => c.type)
      · simp [hmem, Ne.symm hc]
      · simp [hmem, Ne.symm hc]

/-- C8: `setConditionInList` preserves the at-most-one-entry-per-type invariant, and
the matching (or newly created) entry's `lastTransitionTime` is set to `now` exactly
when its stored boolean status differs from the incoming one (a new entry starts from
the zero status, the empty string). -/
theorem setConditionInList_invariant
    (now : Int) (l : List GeneralPodAutoscalerCondition) (ct st rsn msg : String)
    (hdup : (l.map (fun c => c.type)).Nodup) :
    ((setConditionInList now l ct st rsn msg).map (fun c => c.type)).Nodup ∧
    (ct ∈ l.map (fun c => c.type) →
      setConditionInList now l ct st rsn msg =
        l.map (fun d => if d.type = ct then
          { type := ct, status := st, reason := rsn, message := msg,
            lastTransitionTime := if d.status ≠ st then now else d.lastTransitionTime }
          else d)) ∧
    (ct ∉ l.map (fun c => c.type) →
      setConditionInList now l ct st rsn msg =
        l ++ [{ type := ct, status := st, reason := rsn, message := msg,
                lastTransitionTime := if "" ≠ st then now else 0 }]) := by
  refine ⟨?_, ?_, ?_⟩
  · rw [setConditionInList_types]
    by_cases hmem : ct ∈ l.map (fun c => c.type)
    · simpa [hmem] using hdup
    · simp only [hmem, if_false]
      exact List.Nodup.append hdup (List.nodup_singleton ct)
        (by simpa [List.disjoint_singleton] using hmem)
  · intro hmem
    induction l with
    | nil => simp at hmem
    | cons c rest ih =>
      by_cases hc : c.type = ct
      · have hnotin : ct ∉ rest.map (fun d => d.type) := by
          intro hin
          exact (List.nodup_cons.mp (by simpa using hdup)).1 (hc ▸ hin)
        have hfix : rest.map (fun d => if d.type = ct then
            { type := ct, status := st, reason := rsn, message := msg,
              lastTransitionTime :=
                if d.status ≠ st then now else d.lastTransitionTime } else d) = rest := by
          apply List.map_congr_left ?_ |>.trans (List.map_id rest)
          intro d hd
          have : d.type ≠ ct := fun h => hnotin (by
            simpa using List.mem_map.mpr ⟨d, hd, h⟩)
          simp [this]
        simp only [setConditionInList, if_pos hc, List.map_cons, if_pos hc]
        rw [hc]
        congr 1
        exact hfix.symm
      · have hdup' : (rest.map (fun c => c.type)).Nodup :=
          (List.nodup_cons.mp (by simpa using hdup)).2
        have hmem' : ct ∈ rest.map (fun c => c.type) := by
          simp only [List.map_cons, List.mem_cons] at hmem
          rcases hmem with h | h
          · exact absurd h.symm hc
          · exact h
        simp [setConditionInList, hc, ih hdup' hmem', Ne.symm hc]
  · intro hmem
    induction l with
    | nil => simp [setConditionInList]
    | cons c rest ih =>
      have hc : c.type ≠ ct := fun h => hmem (by simp [h])
      have hmem' : ct ∉ rest.map (fun c => c.type) := fun h => hmem (by simp [h])
      have hdup' : (rest.map (fun c => c.type)).Nodup :=
        (List.nodup_cons.mp (by simpa using hdup)).2
      simp [setConditionInList, hc, ih hdup' hmem']

/-- Witness for `setConditionInList_invariant`: updating the single `AbleToScale`
condition from status True to status False stamps the transition time. -/
theorem setConditionInList_invariant_witness :
    setConditionInList 7 [⟨"AbleToScale", "True", "r", "m", 5⟩]
        "AbleToScale" "False" "r2" "m2" =
      [⟨"AbleToScale", "False", "r2", "m2", 7⟩] := by
  rw [(setConditionInList_invariant 7 [⟨"AbleToScale", "True", "r", "m", 5⟩]
    "AbleToScale" "False" "r2" "m2" (by simp)).2.1 (by simp)]
  simp

/-- Embeds `CronMetricSpec`: `{Schedule, MinReplicas (*int32), MaxReplicas, Priority}`.
The metric payload is irrelevant to the scheduler selection and is omitted. -/
structure CronMetricSpec where
  schedule : String
  minReplicas : Option Int
  maxReplicas : Int
  priority : Int
  deriving DecidableEq, Repr

/-- The Go zero value of `CronMetricSpec`. -/
def zeroCronMetricSpec : CronMetricSpec :=
  { schedule := "", minReplicas := none, maxReplicas := 0, priority := 0 }

/-- Embeds the `CronMetricsScaler` struct (the `name` and `now` fields are carried
separately where needed). -/
structure CronMetricsScaler where
  ranges : List CronMetricSpec
  defaultSet : CronMetricSpec
  deriving Repr

/-- Embeds `NewCronMetricsScaler(ranges)`: entries whose schedule is not the literal
"default" go to `ranges`; `defaultSet` is the last "default" entry (the Go loop keeps
overwriting `def`), or the zero value if none is present. -/
def NewCronMetricsScaler (ranges : List CronMetricSpec) : CronMetricsScaler :=
  { ranges := ranges.filter (fun cr => cr.schedule ≠ "default"),
    defaultSet :=
      ((ranges.filter (fun cr => cr.schedule = "default")).getLast?).getD zeroCronMetricSpec }

/-- Embeds the collection loop of `GetCurrentMaxAndMinReplicas`: walk `ranges`,
skip "default" entries, call `getFinalMatchAndMisMatch` (abstracted as `test`) on each
schedule; a parse error aborts (the caller then falls back to the default bounds),
a non-nil final match collects the entry into `crs`. -/
def collectActiveCronSpecs (test : String → Except Unit Bool) :
    List CronMetricSpec → Except Unit (List CronMetricSpec)
  | [] => .ok []
  | cr :: rest =>
    if cr.schedule = "default" then collectActiveCronSpecs test rest
    else
      match test cr.schedule with
      | .error e => .error e
      | .ok false => collectActiveCronSpecs test rest
      | .ok true =>
        match collectActiveCronSpecs test rest with
        | .error e => .error e
        | .ok crs => .ok (cr :: crs)

/-- Embeds the priority-selection loop of `GetCurrentMaxAndMinReplicas`:
`maxPriority` starts at the Go zero value 0, `maxCr` at the zero spec, and each
entry with `Priority >= maxPriority` replaces both. -/
def chooseMaxPriority (crs : List CronMetricSpec) : Int × CronMetricSpec :=
  crs.foldl (fun acc cr => if cr.priority ≥ acc.1 then (cr.priority, cr) else acc)
    (0, zeroCronMetricSpec)

/-- Embeds `CronMetricsScaler.GetCurrentMaxAndMinReplicas`, returning
`(max, min, scheduleName)`.  `none` models a nil-pointer panic on a missing
`MinReplicas`.  The active-window test is abstracted by `test`. -/
def GetCurrentMaxAndMinReplicas (s : CronMetricsScaler)
    (test : String → Except Unit Bool) : Option (Int × Int × String) :=
  if s.defaultSet.maxReplicas = 0 ∧ s.defaultSet.minReplicas = none then
    some (2, 4, "default empty")
  else
    match s.defaultSet.minReplicas with
    | none => none
    | some dmin =>
      match collectActiveCronSpecs test s.ranges with
      | .error _ => some (s.defaultSet.maxReplicas, dmin, s.defaultSet.schedule)
      | .ok crs =>
        if crs.isEmpty then some (s.defaultSet.maxReplicas, dmin, s.defaultSet.schedule)
        else
          let maxCr := (chooseMaxPriority crs).2
          match maxCr.minReplicas with
          | none => none
          | some m => some (maxCr.maxReplicas, m, maxCr.schedule)

/-- C9: when the default entry is absent (zero `MaxReplicas` and nil `MinReplicas`),
`GetCurrentMaxAndMinReplicas` returns the constants `(max = 2, min = 4)` with schedule
name "default empty", and the returned min exceeds the returned max. -/
theorem GetCurrentMaxAndMinReplicas_default_empty
    (ranges : List CronMetricSpec) (sch : String) (pr : Int)
    (test : String → Except Unit Bool) :
    ∃ r, GetCurrentMaxAndMinReplicas
        { ranges := ranges,
          defaultSet :=
            { schedule := sch, minReplicas := none, maxReplicas := 0, priority := pr } }
        test = some r ∧
      r = (2, 4, "default empty") ∧ r.1 < r.2.1 := by
  refine ⟨(2, 4, "default empty"), ?_, rfl, by norm_num⟩
  simp [GetCurrentMaxAndMinReplicas]

/-- The claim's selection rule, stated in its own words: among the candidates pick the
entry with the greatest priority, ties resolved in favor of the last such entry in
iteration order. -/
def specSelectLastMax : List CronMetricSpec → Option CronMetricSpec
  | [] => none
  | cr :: rest =>
    match specSelectLastMax rest with
    | none => some cr
    | some b => if b.priority ≥ cr.priority then some b else some cr

lemma specSelectLastMax_mem {l : List CronMetricSpec} {b : CronMetricSpec}
    (h : specSelectLastMax l = some b) : b ∈ l := by
  induction l with
  | nil => simp [specSelectLastMax] at h
  | cons c rest ih =>
    cases hr : specSelectLastMax rest with
    | none =>
      simp [specSelectLastMax, hr] at h
      simp [h]
    | some b' =>
      simp only [specSelectLastMax, hr] at h
      by_cases hp : b'.priority ≥ c.priority
      · simp only [if_pos hp, Option.some.injEq] at h
        subst h
        exact List.mem_cons_of_mem c (ih hr)
      · simp only [if_neg hp, Option.some.injEq] at h
        simp [← h]

lemma specSelectLastMax_isSome {l : List CronMetricSpec} (h : l ≠ []) :
    ∃ b, specSelectLastMax l = some b := by
  cases l with
  | nil => exact absurd rfl h
  | cons c rest =>
    cases hr : specSelectLastMax rest with
    | none => exact ⟨c, by simp [specSelectLastMax, hr]⟩
    | some b =>
      by_cases hp : b.priority ≥ c.priority
      · exact ⟨b, by simp [specSelectLastMax, hr, hp]⟩
      · exact ⟨c, by simp [specSelectLastMax, hr, hp]⟩

/-- Proof helper naming the right-hand side of `chooseMaxPriority_go`. -/
def chooseStep (mp : Int) (mc : CronMetricSpec) : Option CronMetricSpec →
    Int × CronMetricSpec
  | none => (mp, mc)
  | some b => if mp ≤ b.priority then (b.priority, b) else (mp, mc)

lemma chooseMaxPriority_go (l : List CronMetricSpec) (mp : Int) (mc : CronMetricSpec) :
    l.foldl (fun acc cr => if cr.priority ≥ acc.1 then (cr.priority, cr) else acc)
        (mp, mc) =
      chooseStep mp mc (specSelectLastMax l) := by
  induction l generalizing mp mc with
  | nil => simp [specSelectLastMax, chooseStep]
  | cons c rest ih =>
    by_cases hp : c.priority ≥ mp
    · have hstep : (if c.priority ≥ (mp, mc).1 then (c.priority, c) else (mp, mc)) =
          (c.priority, c) := by simp [hp]
      rw [List.foldl_cons, hstep, ih]
      cases hr : specSelectLastMax rest with
      | none => simp [specSelectLastMax, hr, chooseStep, hp]
      | some b =>
        by_cases hb : b.priority ≥ c.priority
        · have h1 : mp ≤ b.priority := by omega
          simp [specSelectLastMax, hr, chooseStep, hb, h1]
        · have h1 : ¬ (c.priority ≤ b.priority) := by omega
          simp [specSelectLastMax, hr, chooseStep, hb, h1, hp]
    · have hstep : (if c.priority ≥ (mp, mc).1 then (c.priority, c) else (mp, mc)) =
          (mp, mc) := by simp [hp]
      rw [List.foldl_cons, hstep, ih]
      cases hr : specSelectLastMax rest with
      | none =>
        have h1 : ¬ (mp ≤ c.priority) := by omega
        simp [specSelectLastMax, hr, chooseStep, h1]
      | some b =>
        by_cases hb : b.priority ≥ c.priority
        · simp [specSelectLastMax, hr, chooseStep, hb]
        · have h1 : ¬ (mp ≤ c.priority) := by omega
          have h2 : ¬ (mp ≤ b.priority) := by omega
          simp [specSelectLastMax, hr, chooseStep, hb, h1, h2]

/-- The active-window test of a `CronMetricSpec` as a boolean: not the literal
"default" and the abstracted `getFinalMatchAndMisMatch` returns a non-nil match. -/
def isActive (test : String → Except Unit Bool) (cr : CronMetricSpec) : Bool :=
  !(cr.schedule == "default") &&
    (match test cr.schedule with
     | Except.ok b => b
     | Except.error _ => false)

/-- The sublist of entries whose active-window test passes. -/
def activeOf (test : String → Except Unit Bool) (ranges : List CronMetricSpec) :
    List CronMetricSpec :=
  ranges.filter (isActive test)

lemma collectActiveCronSpecs_ok (test : String → Except Unit Bool)
    (ranges : List CronMetricSpec)
    (h : ∀ cr ∈ ranges, cr.schedule ≠ "default" → ∃ b, test cr.schedule = Except.ok b) :
    collectActiveCronSpecs test ranges = .ok (activeOf test ranges) := by
  induction ranges with
  | nil => simp [collectActiveCronSpecs, activeOf]
  | cons cr rest ih =>
    have hrest := fun c hc => h c (List.mem_cons_of_mem cr hc)
    by_cases hd : cr.schedule = "default"
    · simp [collectActiveCronSpecs, hd, activeOf, isActive, ih hrest,
        List.filter_cons]
    · obtain ⟨b, hb⟩ := h cr (List.mem_cons_self cr rest) hd
      cases b
      · simp [collectActiveCronSpecs, hd, hb, activeOf, isActive, ih hrest,
          List.filter_cons]
      · simp [collectActiveCronSpecs, hd, hb, activeOf, isActive, ih hrest,
          List.filter_cons]

/-- C2: among the non-default schedules whose active-window test passes,
`GetCurrentMaxAndMinReplicas` returns the bounds and schedule string of the entry
with the greatest priority, ties resolved in favor of the last such entry
(`>=` comparison in iteration order); when no schedule is active it returns the
default entry's bounds and the literal name "default".  Hypotheses: every
non-default schedule parses, the default entry is present (with its literal
"default" name and a set `MinReplicas`), priorities are non-negative and active
entries carry a `MinReplicas` (otherwise the Go code nil-panics). -/
theorem GetCurrentMaxAndMinReplicas_priority_selection
    (s : CronMetricsScaler) (test : String → Except Unit Bool) (dmin : Int)
    (hdefsch : s.defaultSet.schedule = "default")
    (hdefmin : s.defaultSet.minReplicas = some dmin)
    (htest : ∀ cr ∈ s.ranges, cr.schedule ≠ "default" →
      ∃ b, test cr.schedule = Except.ok b)
    (hpri : ∀ cr ∈ activeOf test s.ranges, 0 ≤ cr.priority)
    (hmin : ∀ cr ∈ activeOf test s.ranges, cr.minReplicas.isSome) :
    (specSelectLastMax (activeOf test s.ranges) = none →
      GetCurrentMaxAndMinReplicas s test =
        some (s.defaultSet.maxReplicas, dmin, "default")) ∧
    (∀ b, specSelectLastMax (activeOf test s.ranges) = some b →
      GetCurrentMaxAndMinReplicas s test =
        some (b.maxReplicas, b.minReplicas.getD 0, b.schedule)) := by
  constructor
  · intro hnone
    have hempty : activeOf test s.ranges = [] := by
      by_contra hne
      obtain ⟨b, hb⟩ := specSelectLastMax_isSome hne
      rw [hnone] at hb
      exact absurd hb (by simp)
    simp [GetCurrentMaxAndMinReplicas, hdefmin,
      collectActiveCronSpecs_ok test s.ranges htest, hempty, hdefsch]
  · intro b hb
    have hmemb := specSelectLastMax_mem hb
    have hne : activeOf test s.ranges ≠ [] := by
      intro he
      rw [he] at hmemb
      exact absurd hmemb (by simp)
    have hprib : 0 ≤ b.priority := hpri b hmemb
    obtain ⟨m, hm⟩ := Option.isSome_iff_exists.mp (hmin b hmemb)
    simp only [GetCurrentMaxAndMinReplicas, hdefmin,
      collectActiveCronSpecs_ok test s.ranges htest]
    rw [if_neg (by simp)]
    simp only [List.isEmpty_eq_true]
    rw [if_neg hne]
    simp [chooseMaxPriority, chooseMaxPriority_go, hb, chooseStep, hprib, hm]

/-- Witness for `GetCurrentMaxAndMinReplicas_priority_selection`: two active
schedules with priorities 100 and 200 and a default entry (9, 10); the
priority-200 entry (min 6, max 8, schedule "b") is selected. -/
theorem GetCurrentMaxAndMinReplicas_priority_selection_witness :
    GetCurrentMaxAndMinReplicas
        { ranges := [{ schedule := "a", minReplicas := some 5, maxReplicas := 7,
                       priority := 100 },
                     { schedule := "b", minReplicas := some 6, maxReplicas := 8,
                       priority := 200 }],
          defaultSet := { schedule := "default", minReplicas := some 9,
                          maxReplicas := 10, priority := 0 } }
        (fun _ => Except.ok true) = some (8, 6, "b") := by
  have h := (GetCurrentMaxAndMinReplicas_priority_selection
      { ranges := [{ schedule := "a", minReplicas := some 5, maxReplicas := 7,
                     priority := 100 },
                   { schedule := "b", minReplicas := some 6, maxReplicas := 8,
                     priority := 200 }],
        defaultSet := { schedule := "default", minReplicas := some 9,
                        maxReplicas := 10, priority := 0 } }
      (fun _ => Except.ok true) 9 rfl rfl
      (by intro cr hcr hnd; exact ⟨true, rfl⟩)
      (by decide) (by decide)).2
      { schedule := "b", minReplicas := some 6, maxReplicas := 8, priority := 200 }
      (by decide)
  simpa using h

/-- Embeds `getYesterdayFirstTime`: one hour before now, truncated to the hour
(epoch seconds; the controller reads the wall clock here, which coincides with
the scaler's `now` field up to the same reconcile instant). -/
def getYesterdayFirstTime (now : Nat) : Nat :=
  ((now - 3600) / 3600) * 3600

/-- Embeds the iterator loop of `getFinalMatchAndMisMatch`: while `t ≤ now`,
record `misMatch = t` and step `t = sched.Next(t)`; on the first `t > now`
return `(misMatch, t)`.  The Go loop is unbounded; `fuel` makes the recursion
structural, and suffices whenever `next` is strictly increasing. -/
def cronWalk (next : Nat → Nat) (now : Nat) : Nat → Nat → Nat → Nat × Nat
  | 0, t, misMatch => (misMatch, t)
  | fuel + 1, t, misMatch =>
    if t ≤ now then cronWalk next now fuel (next t) t else (misMatch, t)

/-- Embeds `CronMetricsScaler.getFinalMatchAndMisMatch` for a schedule that parses
into an optional year constraint (`year = 0` means none, as in
`ParseStandardWithYear`) and a cron iterator `next`; `yearOf` abstracts
`time.Time.Year()`.  Returns `some (misMatch, match)` when the schedule is active
at `now`, `none` otherwise. -/
def getFinalMatchAndMisMatch (yearOf : Nat → Nat) (year : Nat) (next : Nat → Nat)
    (now : Nat) : Option (Nat × Nat) :=
  if year ≠ 0 ∧ year ≠ yearOf now then none
  else
    let initTime := getYesterdayFirstTime now
    let mm := cronWalk next now (now + 1 - initTime) initTime initTime
    if now - mm.1 ≤ 60 ∧ mm.1 ≤ now ∧
        (mm.2 - now ≤ 60 ∨ (mm.1 / 60) % 60 = (now / 60) % 60) then
      some (mm.1, mm.2)
    else none

lemma cronWalk_stop (next : Nat → Nat) (now fuel t misMatch : Nat) (h : ¬ t ≤ now) :
    cronWalk next now fuel t misMatch = (misMatch, t) := by
  cases fuel <;> simp [cronWalk, h]

lemma cronWalk_spec (next : Nat → Nat) (hn : ∀ t, t < next t) (now : Nat) :
    ∀ fuel t misMatch, t ≤ now → now + 1 - t ≤ fuel →
      ∃ k : Nat, (cronWalk next now fuel t misMatch).1 = next^[k] t ∧
        (cronWalk next now fuel t misMatch).1 ≤ now ∧
        (cronWalk next now fuel t misMatch).2 =
          next ((cronWalk next now fuel t misMatch).1) ∧
        now < (cronWalk next now fuel t misMatch).2 := by
  intro fuel
  induction fuel with
  | zero => intro t misMatch ht hf; omega
  | succ fuel ih =>
    intro t misMatch ht hf
    rw [cronWalk, if_pos ht]
    by_cases hnt : next t ≤ now
    · have hf' : now + 1 - next t ≤ fuel := by
        have := hn t
        omega
      obtain ⟨k, h1, h2, h3, h4⟩ := ih (next t) t hnt hf'
      exact ⟨k + 1, by rw [Function.iterate_succ_apply]; exact h1, h2, h3, h4⟩
    · rw [cronWalk_stop next now fuel (next t) t hnt]
      exact ⟨0, rfl, ht, rfl, by omega⟩

lemma iterate_strictMono (next : Nat → Nat) (hn : ∀ t, t < next t) (t : Nat) :
    StrictMono (fun k => next^[k] t) := by
  apply strictMono_nat_of_lt_succ
  intro k
  rw [Function.iterate_succ_apply']
  exact hn _

/-- C3: the schedule is reported active at `now` iff (a) any year constraint matches
`now`'s year, and (b) for the unique iterate `m` of the cron iterator started at one
hour before `now` truncated to the hour with `m ≤ now < next m` (so `m` is the last
firing instant `≤ now` along the walk and `next m` the first one after `now`),
`now - m ≤ 60` seconds and (`next m - now ≤ 60` seconds or `m` and `now` share the
minute of the hour). -/
theorem getFinalMatchAndMisMatch_active_iff
    (yearOf : Nat → Nat) (year : Nat) (next : Nat → Nat) (now : Nat)
    (hn : ∀ t, t < next t) :
    (getFinalMatchAndMisMatch yearOf year next now).isSome = true ↔
      ((year = 0 ∨ year = yearOf now) ∧
        ∃ k : Nat, next^[k] (getYesterdayFirstTime now) ≤ now ∧
          now < next (next^[k] (getYesterdayFirstTime now)) ∧
          now - next^[k] (getYesterdayFirstTime now) ≤ 60 ∧
          (next (next^[k] (getYesterdayFirstTime now)) - now ≤ 60 ∨
            (next^[k] (getYesterdayFirstTime now) / 60) % 60 = (now / 60) % 60)) := by
  have hinit : getYesterdayFirstTime now ≤ now := by
    have h1 : ((now - 3600) / 3600) * 3600 ≤ now - 3600 :=
      Nat.div_mul_le_self (now - 3600) 3600
    unfold getYesterdayFirstTime
    omega
  obtain ⟨j, hw1, hw2, hw3, hw4⟩ := cronWalk_spec next hn now
    (now + 1 - getYesterdayFirstTime now) (getYesterdayFirstTime now)
    (getYesterdayFirstTime now) hinit (le_refl _)
  have hj1 : next^[j] (getYesterdayFirstTime now) ≤ now := hw1 ▸ hw2
  have hj2 : now < next (next^[j] (getYesterdayFirstTime now)) := by
    rw [← hw1, ← hw3]
    exact hw4
  constructor
  · intro hsome
    simp only [getFinalMatchAndMisMatch] at hsome
    by_cases hy : year ≠ 0 ∧ year ≠ yearOf now
    · rw [if_pos hy] at hsome
      simp at hsome
    · rw [if_neg hy] at hsome
      have hyd : year = 0 ∨ year = yearOf now := by tauto
      refine ⟨hyd, j, hj1, hj2, ?_, ?_⟩
      · by_contra hc
        rw [if_neg (by rw [hw1]; omega)] at hsome
        simp at hsome
      · by_contra hc
        push_neg at hc
        rw [if_neg ?_] at hsome
        · simp at hsome
        · rw [hw1, hw3, hw1]
          intro hcond
          rcases hcond.2.2 with h | h
          · omega
          · exact absurd h hc.2
  · rintro ⟨hy, k, hk1, hk2, hk3, hk4⟩
    have hkj : k = j := by
      by_contra hne
      have hsm := iterate_strictMono next hn (getYesterdayFirstTime now)
      rcases Nat.lt_or_ge k j with h | h
      · have h2 : next^[k + 1] (getYesterdayFirstTime now) ≤
            next^[j] (getYesterdayFirstTime now) := hsm.monotone h
        rw [Function.iterate_succ_apply'] at h2
        omega
      · have h' : j < k := by omega
        have h2 : next^[j + 1] (getYesterdayFirstTime now) ≤
            next^[k] (getYesterdayFirstTime now) := hsm.monotone h'
        rw [Function.iterate_succ_apply'] at h2
        omega
    subst hkj
    simp only [getFinalMatchAndMisMatch]
    rw [if_neg (by tauto)]
    rw [if_pos ?_]
    · simp
    · rw [hw1, hw3, hw1]
      refine ⟨by omega, by omega, ?_⟩
      rcases hk4 with h | h
      · exact Or.inl (by omega)
      · exact Or.inr h

/-- Witness for `getFinalMatchAndMisMatch_active_iff`: an every-minute iterator
(`next t = t + 60`), no year constraint, `now = 30`; the walk starts at 0, yields
misMatch 0 and match 60, and both window conditions hold, so the schedule is
active. -/
theorem getFinalMatchAndMisMatch_active_iff_witness :
    (getFinalMatchAndMisMatch (fun _ => 2023) 0 (fun t => t + 60) 30).isSome = true :=
  (getFinalMatchAndMisMatch_active_iff (fun _ => 2023) 0 (fun t => t + 60) 30
    (fun t => Nat.lt_add_of_pos_right (by decide))).mpr
    ⟨Or.inl rfl, 0, by decide, by decide, by decide, by decide⟩

/-- Embeds `timestampedRecommendation`. -/
structure timestampedRecommendation where
  recommendation : Int
  timestamp : Int
  deriving DecidableEq, Repr

/-- Embeds the scan loop of `stabilizeRecommendation`: walk the window with index `i`,
keeping the running maximum of the in-window recommendations (an out-of-window sample
is skipped by the `else if`) and the index of the last out-of-window sample. -/
def stabilizeScan (cutoff : Int) :
    List timestampedRecommendation → Int → Nat → Int × Option Nat
  | [], maxRecommendation, _ => (maxRecommendation, none)
  | r :: rest, maxRecommendation, i =>
    if r.timestamp < cutoff then
      let res := stabilizeScan cutoff rest maxRecommendation (i + 1)
      (res.1, some (res.2.getD i))
    else
      stabilizeScan cutoff rest
        (if r.recommendation > maxRecommendation then r.recommendation
         else maxRecommendation) (i + 1)

/-- Embeds `GeneralController.stabilizeRecommendation(key, prenormalizedDesiredReplicas)`
for the window `recs = recommendations[key]`, with `cutoff = now - downscaleStabilisationWindow`.
Returns the stabilized value and the mutated window: the sample at `oldSampleIndex`
(the last out-of-window one) is replaced in place, or the new sample is appended when
no sample is out-of-window. -/
def stabilizeRecommendation (now downscaleStabilisationWindow : Int)
    (recs : List timestampedRecommendation)
    (prenormalizedDesiredReplicas : Int) : Int × List timestampedRecommendation :=
  let cutoff := now - downscaleStabilisationWindow
  let scan := stabilizeScan cutoff recs prenormalizedDesiredReplicas 0
  (scan.1,
    match scan.2 with
    | some i => recs.set i ⟨prenormalizedDesiredReplicas, now⟩
    | none => recs ++ [⟨prenormalizedDesiredReplicas, now⟩])

/-- Index of the oldest (minimal-timestamp, first on ties) out-of-window sample. -/
def oldestOutOfWindowIdx (cutoff : Int) (recs : List timestampedRecommendation) :
    Option Nat :=
  (recs.enum.foldl (fun acc p =>
    if p.2.timestamp < cutoff then
      match acc with
      | none => some p
      | some q => if p.2.timestamp < q.2.timestamp then some p else some q
    else acc) none).map (fun q => q.1)

/-- Modelled from the claim's words, for comparison with the source embedding:
return the maximum of `preDesired` and every recommendation whose timestamp is
strictly newer than `now - downscaleStabilisationWindow`, and replace the oldest
out-of-window sample in place, appending only when no sample is out-of-window. -/
def stabilizeRecommendation_claim (now downscaleStabilisationWindow : Int)
    (recs : List timestampedRecommendation)
    (prenormalizedDesiredReplicas : Int) : Int × List timestampedRecommendation :=
  let cutoff := now - downscaleStabilisationWindow
  let maxRec := (recs.filter (fun r => cutoff < r.timestamp)).foldl
    (fun m r => max m r.recommendation) prenormalizedDesiredReplicas
  match oldestOutOfWindowIdx cutoff recs with
  | some i => (maxRec, recs.set i ⟨prenormalizedDesiredReplicas, now⟩)
  | none => (maxRec, recs ++ [⟨prenormalizedDesiredReplicas, now⟩])

/-- C5 counterexample: the code differs from the claim in two places.  A sample
timestamped exactly at the cutoff is not strictly newer than the cutoff yet it
enters the maximum (first two conjuncts), and with two out-of-window samples the
code replaces the last one by index while the claim replaces the oldest (last
two conjuncts). -/
theorem stabilizeRecommendation_claim_counterexample :
    (stabilizeRecommendation 100 60 [⟨100, 40⟩] 5).1 = 100 ∧
    (stabilizeRecommendation_claim 100 60 [⟨100, 40⟩] 5).1 = 5 ∧
    (stabilizeRecommendation 100 60 [⟨10, 0⟩, ⟨20, 10⟩] 5).2 =
      [⟨10, 0⟩, ⟨5, 100⟩] ∧
    (stabilizeRecommendation_claim 100 60 [⟨10, 0⟩, ⟨20, 10⟩] 5).2 =
      [⟨5, 100⟩, ⟨20, 10⟩] := by
  decide

lemma stabilizeScan_fst (cutoff : Int) (recs : List timestampedRecommendation) :
    ∀ m i, (stabilizeScan cutoff recs m i).1 =
      (recs.filter (fun r => cutoff ≤ r.timestamp)).foldl
        (fun m r => max m r.recommendation) m := by
  induction recs with
  | nil => intro m i; simp [stabilizeScan]
  | cons r rest ih =>
    intro m i
    by_cases hr : r.timestamp < cutoff
    · have hf : ¬ (cutoff ≤ r.timestamp) := by omega
      simp [stabilizeScan, hr, List.filter_cons, hf, ih]
    · have hf : cutoff ≤ r.timestamp := by omega
      have hmax : (if r.recommendation > m then r.recommendation else m) =
          max m r.recommendation := by
        rcases le_or_lt r.recommendation m with h | h
        · rw [if_neg (by omega), max_eq_left h]
        · rw [if_pos h, max_eq_right h.le]
      simp [stabilizeScan, hr, List.filter_cons, hf, ih, hmax]

lemma stabilizeScan_none (cutoff : Int) (recs : List timestampedRecommendation) :
    ∀ m i, (∀ r ∈ recs, cutoff ≤ r.timestamp) →
      (stabilizeScan cutoff recs m i).2 = none := by
  induction recs with
  | nil => intro m i _; simp [stabilizeScan]
  | cons r rest ih =>
    intro m i h
    have hr : ¬ (r.timestamp < cutoff) := by
      have := h r (List.mem_cons_self r rest)
      omega
    simp [stabilizeScan, hr]
    exact ih _ _ (fun x hx => h x (List.mem_cons_of_mem r hx))

lemma stabilizeScan_snd (cutoff : Int) (recs : List timestampedRecommendation) :
    ∀ m i j (hj : j < recs.length),
      (recs.get ⟨j, hj⟩).timestamp < cutoff →
      (∀ l (hl : l < recs.length), j < l → cutoff ≤ (recs.get ⟨l, hl⟩).timestamp) →
      (stabilizeScan cutoff recs m i).2 = some (i + j) := by
  induction recs with
  | nil => intro m i j hj; simp at hj
  | cons r rest ih =>
    intro m i j hj hold hlast
    cases j with
    | zero =>
      have hr : r.timestamp < cutoff := hold
      have hrest : ∀ x ∈ rest, cutoff ≤ x.timestamp := by
        intro x hx
        obtain ⟨⟨l, hl⟩, hget⟩ := List.mem_iff_get.mp hx
        have h2 := hlast (l + 1) (by simpa using Nat.succ_lt_succ hl) (Nat.succ_pos l)
        rw [← hget]
        simpa using h2
      simp [stabilizeScan, hr, stabilizeScan_none cutoff rest _ _ hrest]
    | succ j' =>
      have hj' : j' < rest.length := by simpa using Nat.lt_of_succ_lt_succ hj
      have hold' : (rest.get ⟨j', hj'⟩).timestamp < cutoff := by
        simpa using hold
      have hlast' : ∀ l (hl : l < rest.length), j' < l →
          cutoff ≤ (rest.get ⟨l, hl⟩).timestamp := by
        intro l hl hgt
        have := hlast (l + 1) (by simpa using Nat.succ_lt_succ hl)
          (Nat.succ_lt_succ hgt)
        simpa using this
      by_cases hr : r.timestamp < cutoff
      · have := ih m (i + 1) j' hj' hold' hlast'
        simp [stabilizeScan, hr, this]
        omega
      · have := ih (if r.recommendation > m then r.recommendation else m)
          (i + 1) j' hj' hold' hlast'
        simp [stabilizeScan, hr, this]
        omega

/-- C5 amended: `stabilizeRecommendation` returns the maximum of `preDesired` and
every recommendation whose timestamp is at least `now - downscaleStabilisationWindow`
(samples exactly at the cutoff included), and mutates the window by replacing the
last out-of-window sample in iteration order (the one at the highest index),
appending only when no sample is out-of-window. -/
theorem stabilizeRecommendation_spec (now wnd pre : Int)
    (recs : List timestampedRecommendation) :
    (stabilizeRecommendation now wnd recs pre).1 =
      (recs.filter (fun r => now - wnd ≤ r.timestamp)).foldl
        (fun m r => max m r.recommendation) pre ∧
    ((∀ r ∈ recs, now - wnd ≤ r.timestamp) →
      (stabilizeRecommendation now wnd recs pre).2 = recs ++ [⟨pre, now⟩]) ∧
    (∀ j (hj : j < recs.length), (recs.get ⟨j, hj⟩).timestamp < now - wnd →
      (∀ l (hl : l < recs.length), j < l → now - wnd ≤ (recs.get ⟨l, hl⟩).timestamp) →
      (stabilizeRecommendation now wnd recs pre).2 = recs.set j ⟨pre, now⟩) := by
  refine ⟨?_, ?_, ?_⟩
  · simp only [stabilizeRecommendation]
    exact stabilizeScan_fst (now - wnd) recs pre 0
  · intro h
    simp only [stabilizeRecommendation,
      stabilizeScan_none (now - wnd) recs pre 0 h]
  · intro j hj hold hlast
    simp only [stabilizeRecommendation,
      stabilizeScan_snd (now - wnd) recs pre 0 j hj hold hlast, Nat.zero_add]

/-- Witness for `stabilizeRecommendation_spec`: the spec scenario — window
`[18 at t=-30s, 12 at t=-10s]`, preDesired 10, a 60-second window, now = 0 —
stabilizes to 18 and appends `(10, now)`. -/
theorem stabilizeRecommendation_spec_witness :
    (stabilizeRecommendation 0 60 [⟨18, -30⟩, ⟨12, -10⟩] 10).1 = 18 ∧
    (stabilizeRecommendation 0 60 [⟨18, -30⟩, ⟨12, -10⟩] 10).2 =
      [⟨18, -30⟩, ⟨12, -10⟩, ⟨10, 0⟩] :=
  ⟨((stabilizeRecommendation_spec 0 60 10 [⟨18, -30⟩, ⟨12, -10⟩]).1).trans (by decide),
   (stabilizeRecommendation_spec 0 60 10 [⟨18, -30⟩, ⟨12, -10⟩]).2.1 (by decide)⟩

/-- Embeds `timestampedScaleEvent`: `{replicaChange, timestamp, outdated}`. -/
structure timestampedScaleEvent where
  replicaChange : Int
  timestamp : Int
  outdated : Bool
  deriving DecidableEq, Repr

/-- Embeds `GPAScalingPolicy`: `{Type ("Pods" | "Percent"), Value, PeriodSeconds}`. -/
structure GPAScalingPolicy where
  policyType : String
  value : Int
  periodSeconds : Int
  deriving DecidableEq, Repr

/-- Embeds `GPAScalingRules`: `{StabilizationWindowSeconds, SelectPolicy, Policies}`. -/
structure GPAScalingRules where
  stabilizationWindowSeconds : Option Int
  selectPolicy : String
  policies : List GPAScalingPolicy
  deriving DecidableEq, Repr

/-- Embeds `GeneralPodAutoscalerBehavior`.  The controller dereferences both rule
pointers whenever it stores an event, so they are modelled as total fields. -/
structure GeneralPodAutoscalerBehavior where
  scaleUp : GPAScalingRules
  scaleDown : GPAScalingRules
  deriving DecidableEq, Repr

/-- Embeds `getLongestPolicyPeriod`. -/
def getLongestPolicyPeriod (scalingRules : GPAScalingRules) : Int :=
  scalingRules.policies.foldl
    (fun longestPolicyPeriod policy =>
      if policy.periodSeconds > longestPolicyPeriod then policy.periodSeconds
      else longestPolicyPeriod) 0

/-- Embeds `markScaleEventsOutdated`: every event strictly older than
`now - longestPolicyPeriod` gets its `outdated` flag set. -/
def markScaleEventsOutdated (now : Int) (scaleEvents : List timestampedScaleEvent)
    (longestPolicyPeriod : Int) : List timestampedScaleEvent :=
  scaleEvents.map (fun e =>
    if e.timestamp < now - longestPolicyPeriod then
      { e with outdated := true }
    else e)

/-- Embeds the slot-search loop of `storeScaleEvent`: the Go loop keeps overwriting
`oldSampleIndex`, so the last outdated index wins. -/
def lastOutdatedIdx : List timestampedScaleEvent → Nat → Option Nat
  | [], _ => none
  | e :: rest, i =>
    if e.outdated then some ((lastOutdatedIdx rest (i + 1)).getD i)
    else lastOutdatedIdx rest (i + 1)

/-- Embeds `GeneralController.storeScaleEvent(behavior, key, prevReplicas, newReplicas)`
acting on the two windows for `key`; returns the updated
`(scaleUpEvents, scaleDownEvents)`. -/
def storeScaleEvent (now : Int) (behavior : Option GeneralPodAutoscalerBehavior)
    (scaleUpEvents scaleDownEvents : List timestampedScaleEvent)
    (prevReplicas newReplicas : Int) :
    List timestampedScaleEvent × List timestampedScaleEvent :=
  match behavior with
  | none => (scaleUpEvents, scaleDownEvents)
  | some b =>
    if newReplicas > prevReplicas then
      let marked := markScaleEventsOutdated now scaleUpEvents
        (getLongestPolicyPeriod b.scaleUp)
      let newEvent : timestampedScaleEvent := ⟨newReplicas - prevReplicas, now, false⟩
      (match lastOutdatedIdx marked 0 with
       | some i => marked.set i newEvent
       | none => marked ++ [newEvent], scaleDownEvents)
    else
      let marked := markScaleEventsOutdated now scaleDownEvents
        (getLongestPolicyPeriod b.scaleDown)
      let newEvent : timestampedScaleEvent := ⟨prevReplicas - newReplicas, now, false⟩
      (scaleUpEvents,
       match lastOutdatedIdx marked 0 with
       | some i => marked.set i newEvent
       | none => marked ++ [newEvent])

/-- Modelled from the claim's words, for comparison with the source embedding:
identical to `storeScaleEvent` except that the new event overwrites the FIRST
outdated slot of the window. -/
def storeScaleEvent_claim (now : Int) (behavior : Option GeneralPodAutoscalerBehavior)
    (scaleUpEvents scaleDownEvents : List timestampedScaleEvent)
    (prevReplicas newReplicas : Int) :
    List timestampedScaleEvent × List timestampedScaleEvent :=
  match behavior with
  | none => (scaleUpEvents, scaleDownEvents)
  | some b =>
    if newReplicas > prevReplicas then
      let marked := markScaleEventsOutdated now scaleUpEvents
        (getLongestPolicyPeriod b.scaleUp)
      let newEvent : timestampedScaleEvent := ⟨newReplicas - prevReplicas, now, false⟩
      (match marked.findIdx? (fun e => e.outdated) with
       | some i => marked.set i newEvent
       | none => marked ++ [newEvent], scaleDownEvents)
    else
      let marked := markScaleEventsOutdated now scaleDownEvents
        (getLongestPolicyPeriod b.scaleDown)
      let newEvent : timestampedScaleEvent := ⟨prevReplicas - newReplicas, now, false⟩
      (scaleUpEvents,
       match marked.findIdx? (fun e => e.outdated) with
       | some i => marked.set i newEvent
       | none => marked ++ [newEvent])

/-- C6 counterexample: with two outdated slots (both events older than the 60s
policy period at now = 100) the code overwrites the slot at index 1 (the last
outdated one), while the claim says the first outdated slot (index 0). -/
theorem storeScaleEvent_claim_counterexample :
    (storeScaleEvent 100
      (some { scaleUp := { stabilizationWindowSeconds := none, selectPolicy := "Max",
                           policies := [⟨"Pods", 4, 60⟩] },
              scaleDown := { stabilizationWindowSeconds := none, selectPolicy := "Max",
                             policies := [⟨"Pods", 4, 60⟩] } })
      [⟨1, 0, false⟩, ⟨2, 0, false⟩] [] 1 3).1 =
        [⟨1, 0, true⟩, ⟨2, 100, false⟩] ∧
    (storeScaleEvent_claim 100
      (some { scaleUp := { stabilizationWindowSeconds := none, selectPolicy := "Max",
                           policies := [⟨"Pods", 4, 60⟩] },
              scaleDown := { stabilizationWindowSeconds := none, selectPolicy := "Max",
                             policies := [⟨"Pods", 4, 60⟩] } })
      [⟨1, 0, false⟩, ⟨2, 0, false⟩] [] 1 3).1 =
        [⟨2, 100, false⟩, ⟨2, 0, true⟩] := by
  decide

lemma lastOutdatedIdx_none (evts : List timestampedScaleEvent) :
    ∀ i, (∀ e ∈ evts, e.outdated = false) → lastOutdatedIdx evts i = none := by
  induction evts with
  | nil => intro i _; simp [lastOutdatedIdx]
  | cons e rest ih =>
    intro i h
    have he : e.outdated = false := h e (List.mem_cons_self e rest)
    simp [lastOutdatedIdx, he,
      ih (i + 1) (fun x hx => h x (List.mem_cons_of_mem e hx))]

lemma lastOutdatedIdx_last (evts : List timestampedScaleEvent) :
    ∀ i j (hj : j < evts.length), (evts.get ⟨j, hj⟩).outdated = true →
      (∀ l (hl : l < evts.length), j < l → (evts.get ⟨l, hl⟩).outdated = false) →
      lastOutdatedIdx evts i = some (i + j) := by
  induction evts with
  | nil => intro i j hj; simp at hj
  | cons e rest ih =>
    intro i j hj hout hlast
    cases j with
    | zero =>
      have he : e.outdated = true := hout
      have hrest : ∀ x ∈ rest, x.outdated = false := by
        intro x hx
        obtain ⟨⟨l, hl⟩, hget⟩ := List.mem_iff_get.mp hx
        have h2 := hlast (l + 1) (by simpa using Nat.succ_lt_succ hl) (Nat.succ_pos l)
        rw [← hget]
        simpa using h2
      simp [lastOutdatedIdx, he, lastOutdatedIdx_none rest (i + 1) hrest]
    | succ j' =>
      have hj' : j' < rest.length := by simpa using Nat.lt_of_succ_lt_succ hj
      have hout' : (rest.get ⟨j', hj'⟩).outdated = true := by simpa using hout
      have hlast' : ∀ l (hl : l < rest.length), j' < l →
          (rest.get ⟨l, hl⟩).outdated = false := by
        intro l hl hgt
        have h2 := hlast (l + 1) (by simpa using Nat.succ_lt_succ hl)
          (Nat.succ_lt_succ hgt)
        simpa using h2
      by_cases he : e.outdated = true
      · simp [lastOutdatedIdx, he, ih (i + 1) j' hj' hout' hlast']
        omega
      · simp only [Bool.not_eq_true] at he
        simp [lastOutdatedIdx, he, ih (i + 1) j' hj' hout' hlast']
        omega

/-- C6 amended: under the behavior path, a successful scale write pushes
`(abs(new − old), now, outdated = false)` into the scale-up window when `new > old`
and into the scale-down window otherwise, after first marking every event older than
that direction's longest policy period as outdated; the new event overwrites the
LAST outdated slot of the window (the Go loop keeps the highest outdated index),
and is appended only when no slot is outdated.  The other direction's window is
untouched. -/
theorem storeScaleEvent_spec (now : Int) (b : GeneralPodAutoscalerBehavior)
    (up down : List timestampedScaleEvent) (prevReplicas newReplicas : Int) :
    (newReplicas > prevReplicas →
      (storeScaleEvent now (some b) up down prevReplicas newReplicas).2 = down) ∧
    (newReplicas > prevReplicas →
      ∀ marked, marked = markScaleEventsOutdated now up (getLongestPolicyPeriod b.scaleUp) →
      ((∀ e ∈ marked, e.outdated = false) →
        (storeScaleEvent now (some b) up down prevReplicas newReplicas).1 =
          marked ++ [⟨newReplicas - prevReplicas, now, false⟩]) ∧
      (∀ j (hj : j < marked.length), (marked.get ⟨j, hj⟩).outdated = true →
        (∀ l (hl : l < marked.length), j < l → (marked.get ⟨l, hl⟩).outdated = false) →
        (storeScaleEvent now (some b) up down prevReplicas newReplicas).1 =
          marked.set j ⟨newReplicas - prevReplicas, now, false⟩)) ∧
    (¬ newReplicas > prevReplicas →
      (storeScaleEvent now (some b) up down prevReplicas newReplicas).1 = up) ∧
    (¬ newReplicas > prevReplicas →
      ∀ marked, marked = markScaleEventsOutdated now down (getLongestPolicyPeriod b.scaleDown) →
      ((∀ e ∈ marked, e.outdated = false) →
        (storeScaleEvent now (some b) up down prevReplicas newReplicas).2 =
          marked ++ [⟨prevReplicas - newReplicas, now, false⟩]) ∧
      (∀ j (hj : j < marked.length), (marked.get ⟨j, hj⟩).outdated = true →
        (∀ l (hl : l < marked.length), j < l → (marked.get ⟨l, hl⟩).outdated = false) →
        (storeScaleEvent now (some b) up down prevReplicas newReplicas).2 =
          marked.set j ⟨prevReplicas - newReplicas, now, false⟩)) := by
  refine ⟨?_, ?_, ?_, ?_⟩
  · intro h
    simp [storeScaleEvent, h]
  · intro h marked hmark
    subst hmark
    constructor
    · intro hnone
      simp only [storeScaleEvent, if_pos h,
        lastOutdatedIdx_none _ 0 hnone]
    · intro j hj hout hlast
      simp only [storeScaleEvent, if_pos h,
        lastOutdatedIdx_last _ 0 j hj hout hlast, Nat.zero_add]
  · intro h
    simp only [storeScaleEvent, if_neg h]
  · intro h marked hmark
    subst hmark
    constructor
    · intro hnone
      simp only [storeScaleEvent, if_neg h,
        lastOutdatedIdx_none _ 0 hnone]
    · intro j hj hout hlast
      simp only [storeScaleEvent, if_neg h,
        lastOutdatedIdx_last _ 0 j hj hout hlast, Nat.zero_add]

/-- Witness for `storeScaleEvent_spec`: a single outdated slot is overwritten with
the new scale-up event `(2, now, false)`. -/
theorem storeScaleEvent_spec_witness :
    (storeScaleEvent 100
      (some { scaleUp := { stabilizationWindowSeconds := none, selectPolicy := "Max",
                           policies := [⟨"Pods", 4, 60⟩] },
              scaleDown := { stabilizationWindowSeconds := none, selectPolicy := "Max",
                             policies := [⟨"Pods", 4, 60⟩] } })
      [⟨1, 0, false⟩] [] 1 3).1 = [⟨2, 100, false⟩] := by
  have h := ((storeScaleEvent_spec 100
      { scaleUp := { stabilizationWindowSeconds := none, selectPolicy := "Max",
                     policies := [⟨"Pods", 4, 60⟩] },
        scaleDown := { stabilizationWindowSeconds := none, selectPolicy := "Max",
                       policies := [⟨"Pods", 4, 60⟩] } }
      [⟨1, 0, false⟩] [] 1 3).2.1 (by decide) _ rfl).2 0 (by decide)
      (by decide) (by decide)
  simpa using h

/-- Embeds `getReplicasChangePerPeriod(periodSeconds, scaleEvents)`: sum of the
replica changes of events strictly newer than `now - periodSeconds`. -/
def getReplicasChangePerPeriod (now periodSeconds : Int)
    (scaleEvents : List timestampedScaleEvent) : Int :=
  scaleEvents.foldl (fun replicas rec =>
    if now - periodSeconds < rec.timestamp then replicas + rec.replicaChange
    else replicas) 0

/-- Embeds `calculateScaleUpLimitWithScalingRules(currentReplicas, scaleEvents,
scalingRules)`.  `result` starts at the Go zero value 0 and `proposed` persists
across loop iterations, exactly as in the source; the float `math.Ceil` of the
Percent branch is modelled as the exact rational ceiling. -/
def calculateScaleUpLimitWithScalingRules (now currentReplicas : Int)
    (scaleEvents : List timestampedScaleEvent) (scalingRules : GPAScalingRules) : Int :=
  if scalingRules.selectPolicy = "Disabled" then currentReplicas
  else
    let selectPolicyFn : Int → Int → Int :=
      if scalingRules.selectPolicy = "Min" then min else max
    (scalingRules.policies.foldl (fun acc policy =>
      let periodStartReplicas := currentReplicas -
        getReplicasChangePerPeriod now policy.periodSeconds scaleEvents
      let proposed :=
        if policy.policyType = "Pods" then periodStartReplicas + policy.value
        else if policy.policyType = "Percent" then
          -(Int.ediv (-(periodStartReplicas * (100 + policy.value))) 100)
        else acc.2
      (selectPolicyFn acc.1 proposed, proposed)) ((0 : Int), (0 : Int))).1

/-- Embeds `calculateScaleDownLimitWithBehaviors(currentReplicas, scaleEvents,
scalingRules)`.  `result` starts at `math.MaxInt32`; the Percent branch's
float-to-int32 conversion truncates toward zero (`Int.div`). -/
def calculateScaleDownLimitWithBehaviors (now currentReplicas : Int)
    (scaleEvents : List timestampedScaleEvent) (scalingRules : GPAScalingRules) : Int :=
  if scalingRules.selectPolicy = "Disabled" then currentReplicas
  else
    let selectPolicyFn : Int → Int → Int :=
      if scalingRules.selectPolicy = "Min" then max else min
    (scalingRules.policies.foldl (fun acc policy =>
      let periodStartReplicas := currentReplicas +
        getReplicasChangePerPeriod now policy.periodSeconds scaleEvents
      let proposed :=
        if policy.policyType = "Pods" then periodStartReplicas - policy.value
        else if policy.policyType = "Percent" then
          Int.tdiv (periodStartReplicas * (100 - policy.value)) 100
        else acc.2
      (selectPolicyFn acc.1 proposed, proposed)) ((2147483647 : Int), (0 : Int))).1

/-- C4 evidence: with `selectPolicy = Min`, a single Pods policy
`{value 4, period 60s}`, current = 10 and an empty event window, the
least-permissive limits would be 14 (scale-up) and 6 (scale-down); the code
instead folds from 0 (scale-up) and `math.MaxInt32` (scale-down), returning 0
and 2147483647.  With `selectPolicy = Max` the same policy yields 14 and 6 as
intended. -/
theorem calculateScaleLimit_min_select_bug :
    calculateScaleUpLimitWithScalingRules 0 10 []
      { stabilizationWindowSeconds := none, selectPolicy := "Min",
        policies := [⟨"Pods", 4, 60⟩] } = 0 ∧
    (0 : Int) ≠ 14 ∧
    calculateScaleDownLimitWithBehaviors 0 10 []
      { stabilizationWindowSeconds := none, selectPolicy := "Min",
        policies := [⟨"Pods", 4, 60⟩] } = 2147483647 ∧
    (2147483647 : Int) ≠ 6 ∧
    calculateScaleUpLimitWithScalingRules 0 10 []
      { stabilizationWindowSeconds := none, selectPolicy := "Max",
        policies := [⟨"Pods", 4, 60⟩] } = 14 ∧
    calculateScaleDownLimitWithBehaviors 0 10 []
      { stabilizationWindowSeconds := none, selectPolicy := "Max",
        policies := [⟨"Pods", 4, 60⟩] } = 6 := by
  decide

/-- Observable effects of one `reconcileAutoscaler` pass: the values written to the
scale subresource (`Scales().Update` calls), the warning/normal event reasons
emitted, whether `updateStatusIfNeeded` was reached, and whether a non-nil error
was returned. -/
structure ReconcileEffects where
  scaleWrites : List Int
  events : List String
  statusWriteCalled : Bool
  isErr : Bool
  deriving DecidableEq, Repr

/-- Effective min replicas for the reconcile: the cron resolver's min overrides
`spec.MinReplicas` when `CronMetricMode` is set. -/
def effectiveMin (cron : Option (Int × Int)) (specMin : Option Int) : Option Int :=
  match cron with
  | some (_, cmin) => some cmin
  | none => specMin

/-- Effective max replicas for the reconcile: the cron resolver's max overrides
`spec.MaxReplicas` when `CronMetricMode` is set. -/
def effectiveMax (cron : Option (Int × Int)) (specMax : Int) : Int :=
  match cron with
  | some (cmax, _) => cmax
  | none => specMax

/-- Embeds the rescale tail of `reconcileAutoscaler` (the `if rescale` block and the
final status update): a rescale to 0 emits `FailedRescale` and returns an error
without touching the scale subresource or the status; otherwise the scale is
written (success emits `SuccessfulRescale`, failure `FailedRescale` plus an error)
and the status update runs. -/
def reconcileFinish (desired : Int) (ev0 : List String)
    (updateScaleOk : Bool) (rescale : Bool) : ReconcileEffects :=
  if rescale then
    if desired = 0 then
      { scaleWrites := [], events := ev0 ++ ["FailedRescale"],
        statusWriteCalled := false, isErr := true }
    else if updateScaleOk then
      { scaleWrites := [desired], events := ev0 ++ ["SuccessfulRescale"],
        statusWriteCalled := true, isErr := false }
    else
      { scaleWrites := [desired], events := ev0 ++ ["FailedRescale"],
        statusWriteCalled := true, isErr := true }
  else
    { scaleWrites := [], events := ev0, statusWriteCalled := true, isErr := false }

/-- Embeds the decision skeleton of `reconcileAutoscaler` after the scale subresource
has been fetched: cron bound override, the min default of 1, the three gates
(scaling disabled, above max, below min), the empty-mode early return, the abstract
per-mode computation (`compute`), the pre-normalization warning when the proposal
exceeds max, the abstract normalizer, and the rescale tail. -/
def reconcileCore (current : Int) (specMin : Option Int) (specMax : Int)
    (cron : Option (Int × Int)) (modesEmpty : Bool)
    (compute : Except Unit Int) (normalize : Int → Int)
    (updateScaleOk : Bool) : ReconcileEffects :=
  let mx := effectiveMax cron specMax
  let minReplicas := (effectiveMin cron specMin).getD 1
  if current = 0 ∧ minReplicas ≠ 0 then
    { scaleWrites := [], events := [], statusWriteCalled := true, isErr := false }
  else if current > mx then
    reconcileFinish mx [] updateScaleOk true
  else if current < minReplicas then
    reconcileFinish minReplicas [] updateScaleOk true
  else if modesEmpty then
    { scaleWrites := [], events := [], statusWriteCalled := false, isErr := false }
  else
    match compute with
    | .error _ =>
      { scaleWrites := [], events := ["FailedComputeMetricsReplicas"],
        statusWriteCalled := true, isErr := true }
    | .ok metricDesiredReplicas =>
      let ev0 := if metricDesiredReplicas > mx then ["FailedRescale"] else []
      let desired0 := if metricDesiredReplicas > 0 then metricDesiredReplicas else 0
      let desired := normalize desired0
      reconcileFinish desired ev0 updateScaleOk (decide (desired ≠ current))

/-- C10: when no driving mode is set (so `CronMetricMode` is nil and `isEmpty` holds)
and none of the initial gates fires, `reconcileAutoscaler` returns nil early: no
scale write, no event, no status update, no error. -/
theorem reconcileCore_empty_mode_no_effects
    (current : Int) (specMin : Option Int) (specMax : Int)
    (compute : Except Unit Int) (normalize : Int → Int) (updateScaleOk : Bool)
    (hgate1 : ¬ (current = 0 ∧ (effectiveMin none specMin).getD 1 ≠ 0))
    (hgate2 : ¬ current > effectiveMax none specMax)
    (hgate3 : ¬ current < (effectiveMin none specMin).getD 1) :
    reconcileCore current specMin specMax none true compute normalize updateScaleOk =
      { scaleWrites := [], events := [], statusWriteCalled := false,
        isErr := false } := by
  simp only [reconcileCore]
  rw [if_neg hgate1, if_neg hgate2, if_neg hgate3]
  simp

/-- Witness for `reconcileCore_empty_mode_no_effects`: current = 1, no spec min
(defaults to 1), max = 5; no gate fires and the reconcile is a no-op. -/
theorem reconcileCore_empty_mode_no_effects_witness :
    reconcileCore 1 none 5 none true (Except.ok 3) (fun d => d) true =
      { scaleWrites := [], events := [], statusWriteCalled := false,
        isErr := false } :=
  reconcileCore_empty_mode_no_effects 1 none 5 (Except.ok 3) (fun d => d) true
    (by decide) (by decide) (by decide)

/-- C7: when the normalized desired replica count is 0 and differs from the current
replica count, the controller performs no scale write, emits a `FailedRescale`
warning and returns a non-nil error. -/
theorem reconcileCore_refuse_zero
    (current : Int) (specMin : Option Int) (specMax : Int)
    (cron : Option (Int × Int)) (d : Int) (normalize : Int → Int)
    (updateScaleOk : Bool)
    (hgate1 : ¬ (current = 0 ∧ (effectiveMin cron specMin).getD 1 ≠ 0))
    (hgate2 : ¬ current > effectiveMax cron specMax)
    (hgate3 : ¬ current < (effectiveMin cron specMin).getD 1)
    (hnorm : normalize (if d > 0 then d else 0) = 0)
    (hcur : current ≠ 0) :
    (reconcileCore current specMin specMax cron false (Except.ok d) normalize
        updateScaleOk).scaleWrites = [] ∧
    "FailedRescale" ∈ (reconcileCore current specMin specMax cron false
        (Except.ok d) normalize updateScaleOk).events ∧
    (reconcileCore current specMin specMax cron false (Except.ok d) normalize
        updateScaleOk).isErr = true := by
  have hrc : reconcileCore current specMin specMax cron false (Except.ok d) normalize
      updateScaleOk =
      reconcileFinish 0 (if d > effectiveMax cron specMax then ["FailedRescale"]
        else []) updateScaleOk (decide ((0 : Int) ≠ current)) := by
    simp only [reconcileCore]
    rw [if_neg hgate1, if_neg hgate2, if_neg hgate3]
    simp [hnorm]
  rw [hrc, reconcileFinish]
  rw [if_pos (by simpa using Ne.symm hcur)]
  rw [if_pos rfl]
  refine ⟨rfl, ?_, rfl⟩
  exact List.mem_append.mpr (Or.inr (by simp))

/-- Witness for `reconcileCore_refuse_zero`: current = 3, cron override min 0
max 5, the metric proposes 1 and the normalizer returns 0; the reconcile refuses
to write, emits `FailedRescale` and errors out. -/
theorem reconcileCore_refuse_zero_witness :
    (reconcileCore 3 none 5 (some (5, 0)) false (Except.ok 1) (fun _ => 0)
        true).scaleWrites = [] ∧
    "FailedRescale" ∈ (reconcileCore 3 none 5 (some (5, 0)) false (Except.ok 1)
        (fun _ => 0) true).events ∧
    (reconcileCore 3 none 5 (some (5, 0)) false (Except.ok 1) (fun _ => 0)
        true).isErr = true :=
  reconcileCore_refuse_zero 3 none 5 (some (5, 0)) 1 (fun _ => 0) true
    (by decide) (by decide) (by decide) (by decide) (by decide)
